import Mathlib

/-!
Verification of the utility layer of `ieegprep` (`ieegprep/utils/misc.py`):
guarded array allocation, fixed-width number formatting, a timing harness,
and the cross-platform virtual-cache clearing routine.

Python strings are modelled as Lean `String`, Python `int` as `Int`,
machine byte counts as `Nat`.  Python's `str.ljust`/`str.rjust` (which pad
with spaces up to a target width and never truncate) are modelled by
`pyLjust`/`pyRjust` below, taking the Python `int` width as `Int`.
-/

namespace Ieegprep

/-- A run of `n` space characters (`''.ljust(n, ' ')`). -/
def spaces (n : Nat) : String :=
  String.mk (List.replicate n ' ')

/-- Python `s.ljust(w, ' ')`: pad on the right up to width `w`
(no-op when `w ≤ len(s)`, in particular for negative `w`). -/
def pyLjust (s : String) (w : Int) : String :=
  s ++ spaces (w - (s.length : Int)).toNat

/-- Python `s.rjust(w, ' ')`: pad on the left up to width `w`
(no-op when `w ≤ len(s)`, in particular for negative `w`). -/
def pyRjust (s : String) (w : Int) : String :=
  spaces (w - (s.length : Int)).toNat ++ s

/-- Model of `number_to_padded_string` (misc.py lines 117-133): render a number with
an optional leading space for non-negative values, then pad left
(`width < 0`, to `-width`) or right (`width > 0`, to `width`). -/
def number_to_padded_string (value : Int) (width : Int := 0) (pos_space : Bool := true) : String :=
  let padded_str := (if pos_space ∧ 0 ≤ value then " " else "") ++ toString value
  if width < 0 then pyRjust padded_str (width * -1)
  else if width > 0 then pyLjust padded_str width
  else padded_str

/-- Exact integer model of Python `math.ceil(a / b)` (true division then
ceiling), for a positive divisor `b`: `Int.fdiv` is floor division, and
`⌈a/b⌉ = -⌊-a/b⌋`. -/
def ceilOfDiv (a b : Int) : Int :=
  -((-a).fdiv b)

/-- The inter-value gap `sep_width` computed by `numbers_to_padded_string`
(misc.py lines 161-165) for `count ≥ 2` values:
`(width - total_value_width - (count-1)*len(separator)) / (count-1)`,
floored at 1, otherwise rounded up to the nearest integer.  (The Python
float comparison `sep_width < 1` is `num/(count-1) < 1`, i.e. `num < count-1`.) -/
def sepWidth (width : Int) (total_value_width : Nat) (count : Nat) (sepLen : Nat) : Int :=
  let num : Int := width - (total_value_width : Int) - (((count - 1) * sepLen : Nat) : Int)
  if num < ((count - 1 : Nat) : Int) then 1 else ceilOfDiv num ((count - 1 : Nat) : Int)

/-- The accumulation loop of `numbers_to_padded_string` (misc.py lines
167-173): for each remaining rendered value, append the separator, then
either the truncated gap `''.ljust(width - len(acc) - len(p))` (when the
greedy check overflows `width`) or the regular gap `''.ljust(gap)`, then
the rendered value itself. -/
def padLoop (acc : String) (ps : List String) (gap : Int) (width : Int) (sep : String) : String :=
  match ps with
  | [] => acc
  | p :: rest =>
      let acc1 := acc ++ sep
      let k : Nat :=
        if ((acc1.length : Int) + gap + (p.length : Int) > width)
        then (width - (acc1.length : Int) - (p.length : Int)).toNat
        else gap.toNat
      padLoop (acc1 ++ spaces k ++ p) rest gap width sep

/-- Model of `numbers_to_padded_string` (misc.py lines 136-175): join several
rendered numbers into one line of (ideally) `width` characters, spreading
them with separator-prefixed space gaps. -/
def numbers_to_padded_string (values : List Int) (width : Int := 0) (pos_space : Bool := true) (separator : String := ", ") : String :=
  match values with
  | [] => ""
  | v :: vs =>
    let padded_values := (v :: vs).map (fun x => number_to_padded_string x 0 pos_space)
    let total_value_width : Nat := (padded_values.map String.length).sum
    match vs with
    | [] => pyLjust (number_to_padded_string v 0 pos_space) width
    | _ :: _ =>
      let sw := sepWidth width total_value_width (v :: vs).length separator.length
      padLoop (number_to_padded_string v 0 pos_space)
        (vs.map (fun x => number_to_padded_string x 0 pos_space)) sw width separator

/-- The "natural unpadded length" of a rendering: the sum of the unpadded
rendered value widths plus `(count-1)` separator lengths (0 for an empty
list, via truncated subtraction). -/
def naturalLen (values : List Int) (pos_space : Bool) (sep : String) : Nat :=
  ((values.map (fun v => (number_to_padded_string v 0 pos_space).length)).sum)
    + (values.length - 1) * sep.length

/-- The gap the code computes for a given call of `numbers_to_padded_string`
(meaningful for `count ≥ 2`; unused by the code otherwise). -/
def gapWidth (values : List Int) (width : Int) (pos_space : Bool) (sep : String) : Int :=
  sepWidth width
    (((values.map (fun x => number_to_padded_string x 0 pos_space)).map String.length).sum)
    values.length sep.length

/-- The separator-and-value length a rendered tail contributes to a line:
`Σ (len(sep) + len(p))` over the rendered values after the first. -/
def natTail (sep : String) : List String → Nat
  | [] => 0
  | p :: ps => sep.length + p.length + natTail sep ps

/-- The shape claimed by C10: after the first rendered value, each later
value is emitted as one full separator copy, a run of spaces, and the full
rendering. -/
def gapRender (sep : String) : List String → List Nat → String
  | p :: ps, g :: gs => sep ++ spaces g ++ p ++ gapRender sep ps gs
  | _, _ => ""

/-! ## `allocate_array` (misc.py lines 20-63)

The routine creates an uninitialised ndarray object (`np.empty`, which for
an oversized request may itself raise `MemoryError` before any query is
made), then imports `psutil` (raising `ImportError` — uncaught — when the
memory-query capability is unavailable), queries available memory, raises
`MemoryError` when `available <= bytes_needed` (after logging a diagnostic
with an MB estimate), and otherwise fills and returns the buffer.  The
`except MemoryError` handler logs the reduced diagnostic (no MB estimate)
exactly when the query had not yet run (`mem is None`). -/

/-- Result of the `virtual_memory()` query, in bytes. -/
structure MemInfo where
  available : Nat
  used : Nat
  deriving DecidableEq, Repr

/-- Which diagnostic `allocate_array` logs before raising `MemoryError`:
the reduced one (no MB figure, used when the memory query never ran) or
the full one carrying `int((mem.used + bytes_needed) / 1024.0**2)`. -/
inductive Diagnostic where
  | reduced
  | full (mbNeeded : Nat)
  deriving DecidableEq, Repr

/-- Observable outcome of `allocate_array`: a returned buffer, a raised
`MemoryError` (with the diagnostic logged beforehand), or an uncaught
`ImportError` from the deferred `psutil` import (nothing logged). -/
inductive AllocOutcome (α : Type) where
  | ok (data : List α)
  | memoryError (d : Diagnostic)
  | importError
  deriving DecidableEq, Repr

/-- Model of `allocate_array` (misc.py lines 20-63).  `dims` is the requested shape,
`itemsize` the byte size of `dtype`; the buffer is modelled as a flat list
of `dims.prod` elements.  `emptyRaises` models whether the initial
`np.empty(dimensions)` call itself raises `MemoryError`; `psutilMem` is
`none` when the `psutil` import fails and otherwise carries the
`virtual_memory()` result. -/
def allocate_array (α : Type) (dims : List Nat) (itemsize : Nat) (fill_value : α)
    (emptyRaises : Bool) (psutilMem : Option MemInfo) : AllocOutcome α :=
  if emptyRaises then
    .memoryError .reduced
  else
    match psutilMem with
    | none => .importError
    | some mem =>
      let data_bytes_needed := dims.prod * itemsize
      if mem.available ≤ data_bytes_needed then
        .memoryError (.full ((mem.used + data_bytes_needed) / (1024 * 1024)))
      else
        .ok (List.replicate dims.prod fill_value)

/-! ## `time_func` (misc.py lines 192-231)

The harness clamps `loop` to at least 1, then records
`(time2 - time1) * 1000.0` for each of the `loop` calls.  Clock readings
are environment data: `elapsed k` is the seconds elapsed during the `k`-th
timed call (as an exact rational).  The returned aggregates (mean, std,
min, max) are float statistics of this sample list and are not modelled
further; the sample list itself is. -/

/-- The per-iteration sample list `times` built by `time_func`. -/
def time_func (elapsed : Nat → ℚ) (loop : Int) : List ℚ :=
  let loop' : Nat := (if loop < 1 then 1 else loop).toNat
  (List.range loop').map (fun k => elapsed k * 1000)

/-! ## `clear_virtual_cache` (misc.py lines 234-293)

The routine dispatches on `sys.platform` and is modelled as the ordered
trace of its observable side effects plus a final control outcome.
Environment data: whether `os.path.exists` finds `RAMMap64.exe` in the
current working directory, whether the executable is discoverable on the
search path (never consulted by the code — it only matters for stating the
spec claim about it), whether `/proc/sys/vm/drop_caches` can be opened for
writing, and the exit status of each macOS `sudo -A /usr/sbin/purge`
attempt. -/

/-- One observable side effect of `clear_virtual_cache`. -/
inductive Effect where
  | printError (msg : String)
  | exitProcess (code : Nat)
  | runSystem (cmd : String)
  | printLine (msg : String)
  | sync
  | writeFile (path : String) (content : String)
  | removeFile (path : String)
  | setEnvVar (key : String) (val : String)
  deriving DecidableEq, Repr

/-- Control outcome of a `clear_virtual_cache` call: an ordinary return, a
process termination via `exit(code)`, or a propagated Python exception. -/
inductive Outcome where
  | normal
  | exited (code : Nat)
  | raised (err : String)
  deriving DecidableEq, Repr

/-- Host environment facts consumed (or, for `rammapOnPath`, pointedly not
consumed) by `clear_virtual_cache`. -/
structure SysEnv where
  rammapInCwd : Bool
  rammapOnPath : Bool
  dropCachesWritable : Bool
  purgeExit : Nat → Int

/-- A single-quote character, for embedding shell text faithfully. -/
def squote : String := String.singleton (Char.ofNat 39)

/-- Content written to `./mac_prompt_pw.sh` (misc.py lines 273-275): the
two `f.write` calls concatenated. -/
def macPromptScript : String :=
  "#!/bin/bash\n" ++ "pw=\"$(osascript -e " ++ squote
    ++ "Tell application \"System Events\" to display dialog \"Password to purge virtual memory:\" default answer \"\" with hidden answer"
    ++ squote ++ " -e " ++ squote ++ "text returned of result" ++ squote
    ++ " 2>/dev/null)\" && echo \"$pw\"\n"

/-- The shell command of each purge attempt. -/
def purgeCmd : String := "sudo -A /usr/sbin/purge"

/-- The error printed when `RAMMap64.exe` is not found (misc.py line 248). -/
def rammapMissingMsg : String :=
  "Error: could not find RAMMAP64.exe to clear virtual memory.\nDownload RAMMAP tools from Microsoft Sysinternals, and make sure the RAMMAP64.exe file is into the script directory (or can be found through the environment variable $PATH)"

/-- The warning printed after five failed purge attempts (misc.py line 289). -/
def purgeExhaustedMsg : String :=
  "Could not purge virtual memory after 5 tries, skipping"

/-- The macOS retry loop (misc.py lines 281-287): `while retry_purge < 5`,
run `sudo -A /usr/sbin/purge`, break on exit status 0, otherwise print
`Retry purge` and increment.  Returns the effect trace and the final value
of `retry_purge`.  `fuel` makes the recursion structural; since every
non-breaking iteration increments `retry` and the guard is `retry < 5`,
`fuel = 5 - retry` reproduces the loop exactly (entry point uses
`retry = 0`, `fuel = 5`). -/
def purgeLoop (exitc : Nat → Int) (retry : Nat) (fuel : Nat) : List Effect × Nat :=
  match fuel with
  | 0 => ([], retry)
  | fuel' + 1 =>
    if retry < 5 then
      if exitc retry = 0 then
        ([.runSystem purgeCmd], retry)
      else
        let r := purgeLoop exitc (retry + 1) fuel'
        (.runSystem purgeCmd :: .printLine "Retry purge" :: r.1, r.2)
    else ([], retry)

/-- Model of `clear_virtual_cache` (misc.py lines 234-293), as the ordered effect
trace and control outcome for a given `sys.platform` string and host
environment.  Note the `if/elif` chain has no `else`: a platform matching
no branch falls through and returns normally with no effects. -/
def clear_virtual_cache (platform : String) (env : SysEnv) : List Effect × Outcome :=
  if platform = "win32" then
    if ¬ env.rammapInCwd then
      ([.printError rammapMissingMsg, .exitProcess 1], .exited 1)
    else
      ([.runSystem "RAMMap64.exe -Et", .printLine "Cleared virtual memory"], .normal)
  else if platform = "linux" ∨ platform = "linux2" then
    if env.dropCachesWritable then
      ([.sync, .writeFile "/proc/sys/vm/drop_caches" "1\n", .printLine "Cleared virtual memory"], .normal)
    else
      ([.sync], .raised "PermissionError")
  else if platform = "darwin" then
    let lp := purgeLoop env.purgeExit 0 5
    ([.writeFile "./mac_prompt_pw.sh" macPromptScript,
      .setEnvVar "SUDO_ASKPASS" "./mac_prompt_pw.sh",
      .runSystem "chmod +x ./mac_prompt_pw.sh"]
      ++ lp.1
      ++ (if lp.2 = 5 then [.printError purgeExhaustedMsg] else [])
      ++ [.removeFile "./mac_prompt_pw.sh", .printLine "Cleared virtual memory"], .normal)
  else
    ([], .normal)

/-- Number of purge invocations recorded in a trace. -/
def countPurge : List Effect → Nat
  | [] => 0
  | .runSystem c :: tr => (if c = purgeCmd then 1 else 0) + countPurge tr
  | _ :: tr => countPurge tr

/-- The set of paths existing on disk after a trace runs, given the paths
existing before (`writeFile` creates, `removeFile` deletes, other effects
leave the filesystem as is). -/
def filesAfter (fs : List String) (tr : List Effect) : List String :=
  tr.foldl
    (fun fs e =>
      match e with
      | .writeFile p _ => if p ∈ fs then fs else p :: fs
      | .removeFile p => fs.filter (fun q => q ≠ p)
      | _ => fs)
    fs

/-! ## Basic string-length lemmas -/

theorem length_spaces (n : Nat) : (spaces n).length = n := by
  simp [spaces]

theorem number_to_padded_string_zero (v : Int) (pos : Bool) :
    number_to_padded_string v 0 pos = (if pos ∧ 0 ≤ v then " " else "") ++ toString v := by
  simp [number_to_padded_string]

theorem number_to_padded_string_neg (v w : Int) (pos : Bool) (hw : w < 0) :
    number_to_padded_string v w pos = pyRjust (number_to_padded_string v 0 pos) (w * -1) := by
  rw [number_to_padded_string_zero]
  simp [number_to_padded_string, hw]

theorem number_to_padded_string_pos (v w : Int) (pos : Bool) (hw : 0 < w) :
    number_to_padded_string v w pos = pyLjust (number_to_padded_string v 0 pos) w := by
  rw [number_to_padded_string_zero]
  simp [number_to_padded_string, hw, Int.not_lt.mpr (le_of_lt hw)]

/-! ## Claims about `allocate_array` -/

/-- Claim C1: with the memory query available, `allocate_array` returns a
buffer of exactly `dims.prod` elements, all equal to `fill_value`, whenever
the available memory strictly exceeds the computed byte size, and raises
`MemoryError` (after logging the quantified diagnostic) whenever the byte
size is at least the available memory — never a partial buffer. -/
theorem allocate_array_memory_guard {α : Type} (dims : List Nat) (itemsize : Nat)
    (fill_value : α) (mem : MemInfo) (_hpos : ∀ d ∈ dims, 0 < d) :
    (dims.prod * itemsize < mem.available →
      allocate_array α dims itemsize fill_value false (some mem)
        = .ok (List.replicate dims.prod fill_value)
      ∧ (List.replicate dims.prod fill_value).length = dims.prod
      ∧ ∀ x ∈ List.replicate dims.prod fill_value, x = fill_value)
    ∧ (mem.available ≤ dims.prod * itemsize →
      allocate_array α dims itemsize fill_value false (some mem)
        = .memoryError (.full ((mem.used + dims.prod * itemsize) / (1024 * 1024)))) := by
  constructor
  · intro h
    refine ⟨?_, by simp, fun x hx => List.eq_of_mem_replicate hx⟩
    simp [allocate_array, Nat.not_le.mpr h]
  · intro h
    simp [allocate_array, h]

/-- Witness for C1 at shape `[2, 3]`, itemsize 8, 100 bytes available. -/
theorem allocate_array_memory_guard_witness :
    allocate_array Int [2, 3] 8 (7 : Int) false (some ⟨100, 40⟩)
      = .ok (List.replicate ([2, 3] : List Nat).prod (7 : Int))
    ∧ (List.replicate ([2, 3] : List Nat).prod (7 : Int)).length = ([2, 3] : List Nat).prod
    ∧ ∀ x ∈ List.replicate ([2, 3] : List Nat).prod (7 : Int), x = (7 : Int) :=
  (allocate_array_memory_guard [2, 3] 8 (7 : Int) ⟨100, 40⟩ (by decide)).1 (by decide)

/-- Claim C6, amended: when the memory-query capability is unavailable
(`psutil` import fails), `allocate_array` propagates the import failure —
it does not raise `MemoryError` and logs nothing; the reduced diagnostic
(no MB estimate) together with `MemoryError` occurs exactly when the
initial `np.empty` call itself raises `MemoryError` before the query. -/
theorem allocate_array_failure_modes {α : Type} (dims : List Nat) (itemsize : Nat)
    (fill_value : α) (psutilMem : Option MemInfo) :
    allocate_array α dims itemsize fill_value false none = .importError
    ∧ allocate_array α dims itemsize fill_value true psutilMem = .memoryError .reduced :=
  ⟨rfl, rfl⟩

/-- Counterexample to C6 as stated: with `psutil` unavailable (and `np.empty`
succeeding), the outcome is the uncaught import failure, not the claimed
`OutOfMemory` with reduced diagnostic. -/
theorem allocate_array_psutil_missing_counterexample :
    allocate_array Int [2, 3] 8 (0 : Int) false none = .importError
    ∧ (AllocOutcome.importError : AllocOutcome Int) ≠ .memoryError .reduced := by
  exact ⟨rfl, by decide⟩

/-! ## Claim about `time_func` -/

/-- Claim C8: `time_func` clamps the iteration count to a minimum of 1 and
returns a sample sequence of exactly the clamped length; in particular 5
iterations give 5 samples and 0 iterations give 1 sample. -/
theorem time_func_sample_count (elapsed : Nat → ℚ) (loop : Int) :
    (time_func elapsed loop).length = max 1 loop.toNat
    ∧ (time_func elapsed 5).length = 5
    ∧ (time_func elapsed 0).length = 1 := by
  refine ⟨?_, by simp [time_func], by simp [time_func]⟩
  simp only [time_func, List.length_map, List.length_range]
  split <;> omega

/-! ## Claim about `number_to_padded_string` -/

/-- Claim C9: `number_to_padded_string` renders the value as text with one
space prepended exactly when `pos_space` is set and the value is
non-negative; a negative width right-justifies (left pad) to `|width|`, a
positive width left-justifies (right pad) to `width`, and width 0 adds no
padding; `number_to_padded_string 5 0 true = " 5"` and
`number_to_padded_string (-3) 0 true = "-3"`. -/
theorem number_to_padded_string_spec :
    (∀ (v : Int) (pos : Bool),
        (number_to_padded_string v 0 pos).length
          = (toString v).length + (if pos ∧ 0 ≤ v then 1 else 0))
    ∧ (∀ (v : Int) (pos : Bool),
        (number_to_padded_string v 0 pos = " " ++ toString v) ↔ (pos = true ∧ 0 ≤ v))
    ∧ (∀ (v w : Int) (pos : Bool), w < 0 →
        number_to_padded_string v w pos
          = spaces ((w * -1) - ((number_to_padded_string v 0 pos).length : Int)).toNat
              ++ number_to_padded_string v 0 pos
        ∧ (number_to_padded_string v w pos).length
          = max (w * -1).toNat (number_to_padded_string v 0 pos).length)
    ∧ (∀ (v w : Int) (pos : Bool), 0 < w →
        number_to_padded_string v w pos
          = number_to_padded_string v 0 pos
              ++ spaces (w - ((number_to_padded_string v 0 pos).length : Int)).toNat
        ∧ (number_to_padded_string v w pos).length
          = max w.toNat (number_to_padded_string v 0 pos).length)
    ∧ number_to_padded_string 5 0 true = " 5"
    ∧ number_to_padded_string (-3) 0 true = "-3" := by
  refine ⟨?_, ?_, ?_, ?_, by decide, by decide⟩
  · intro v pos
    have hs : (" " : String).length = 1 := rfl
    rw [number_to_padded_string_zero]
    by_cases h : pos = true ∧ 0 ≤ v
    · simp [h, String.length_append]
      omega
    · simp [h, String.length_append]
  · intro v pos
    constructor
    · intro hEq
      by_contra hc
      rw [number_to_padded_string_zero, if_neg hc] at hEq
      have hlen := congrArg String.length hEq
      simp [String.length_append] at hlen
      exact absurd hlen (by decide)
    · intro hc
      rw [number_to_padded_string_zero, if_pos hc]
  · intro v w pos hw
    rw [number_to_padded_string_neg v w pos hw]
    refine ⟨rfl, ?_⟩
    simp only [pyRjust, String.length_append, length_spaces]
    omega
  · intro v w pos hw
    rw [number_to_padded_string_pos v w pos hw]
    refine ⟨rfl, ?_⟩
    simp only [pyLjust, String.length_append, length_spaces]
    omega

/-- Witness for C9: right-justification at value 7, width -4. -/
theorem number_to_padded_string_spec_witness :
    number_to_padded_string 7 (-4) true
      = spaces (((-4 : Int) * -1 - ((number_to_padded_string 7 0 true).length : Int)).toNat)
          ++ number_to_padded_string 7 0 true
    ∧ (number_to_padded_string 7 (-4) true).length
      = max ((-4 : Int) * -1).toNat (number_to_padded_string 7 0 true).length :=
  number_to_padded_string_spec.2.2.1 7 (-4) true (by decide)

/-! ## Claims about `clear_virtual_cache` -/

/-- Claim C2, amended: on a platform matching none of the three branches,
`clear_virtual_cache` performs no filesystem or subprocess side effects and
returns normally — the code has no `else` branch, so no
`UnsupportedPlatform` failure is signalled. -/
theorem clear_virtual_cache_unsupported_platform (p : String) (env : SysEnv)
    (h1 : p ≠ "win32") (h2 : p ≠ "linux") (h3 : p ≠ "linux2") (h4 : p ≠ "darwin") :
    clear_virtual_cache p env = ([], .normal) := by
  simp [clear_virtual_cache, h1, h2, h3, h4]

/-- Witness for C2 on the unsupported platform string `freebsd`. -/
theorem clear_virtual_cache_unsupported_platform_witness :
    clear_virtual_cache "freebsd" ⟨true, true, true, fun _ => 1⟩ = ([], .normal) :=
  clear_virtual_cache_unsupported_platform "freebsd" ⟨true, true, true, fun _ => 1⟩
    (by decide) (by decide) (by decide) (by decide)

/-- Counterexample to C2 as stated: on the unmatched platform `sunos5` the
call returns normally (`Outcome.normal`), i.e. it does not fail at all, in
particular not with an unsupported-platform error. -/
theorem clear_virtual_cache_unsupported_counterexample :
    clear_virtual_cache "sunos5" ⟨true, true, true, fun _ => 0⟩ = ([], .normal)
    ∧ Outcome.normal ≠ .exited 1
    ∧ Outcome.normal ≠ .raised "UnsupportedPlatform" :=
  ⟨rfl, by decide, by decide⟩

/-- Claim C5, amended: on the Windows branch the failure is decided solely
by the presence of `RAMMap64.exe` in the current working directory — the
search path is never consulted — and a missing tool is reported to the
user and then terminates the whole process via `exit(1)`; when the file is
present in the working directory the tool is invoked with the cache-empty
flag. -/
theorem clear_virtual_cache_win32_behavior (env : SysEnv) :
    ((clear_virtual_cache "win32" env).2 = .exited 1 ↔ env.rammapInCwd = false)
    ∧ (env.rammapInCwd = false →
        clear_virtual_cache "win32" env
          = ([.printError rammapMissingMsg, .exitProcess 1], .exited 1))
    ∧ (env.rammapInCwd = true →
        clear_virtual_cache "win32" env
          = ([.runSystem "RAMMap64.exe -Et", .printLine "Cleared virtual memory"], .normal)) := by
  cases h : env.rammapInCwd <;> simp [clear_virtual_cache, h]

/-- Witness for C5: tool absent from the working directory (though present
on the search path) prints the error and exits the process. -/
theorem clear_virtual_cache_win32_behavior_witness :
    clear_virtual_cache "win32" ⟨false, true, true, fun _ => 0⟩
      = ([.printError rammapMissingMsg, .exitProcess 1], .exited 1) :=
  (clear_virtual_cache_win32_behavior ⟨false, true, true, fun _ => 0⟩).2.1 rfl

/-- Counterexample to C5 as stated: with the executable discoverable on the
search path (`rammapOnPath = true`) but not in the working directory, the
call still fails, and does so by terminating the process (`exit(1)`) —
contradicting both "discoverable ... on the search path" and "not fatal to
the process". -/
theorem clear_virtual_cache_win32_counterexample :
    clear_virtual_cache "win32" ⟨false, true, true, fun _ => 1⟩
      = ([.printError rammapMissingMsg, .exitProcess 1], .exited 1)
    ∧ Outcome.exited 1 ≠ .normal :=
  ⟨rfl, by decide⟩

/-! Lemmas about the macOS purge retry loop. -/

theorem countPurge_append (t1 t2 : List Effect) :
    countPurge (t1 ++ t2) = countPurge t1 + countPurge t2 := by
  induction t1 with
  | nil => simp [countPurge]
  | cons e tr ih =>
    cases e <;> (simp [countPurge, ih]; try omega)

theorem countPurge_purgeLoop_le (exitc : Nat → Int) (retry fuel : Nat) :
    countPurge (purgeLoop exitc retry fuel).1 ≤ fuel := by
  induction fuel generalizing retry with
  | zero => simp [purgeLoop, countPurge]
  | succ fuel' ih =>
    simp only [purgeLoop]
    split
    · split
      · simp [countPurge]
      · have := ih (retry + 1)
        simp [countPurge]
        omega
    · simp [countPurge]

theorem purgeLoop_retries_on_failure (exitc : Nat → Int) (retry fuel : Nat) :
    ∀ k : Nat, k + 1 < countPurge (purgeLoop exitc retry fuel).1 → exitc (retry + k) ≠ 0 := by
  induction fuel generalizing retry with
  | zero => simp [purgeLoop, countPurge]
  | succ fuel' ih =>
    intro k hk
    simp only [purgeLoop] at hk
    split at hk
    · split at hk
      · simp [countPurge] at hk
      · next hfail =>
        simp [countPurge] at hk
        match k with
        | 0 => simpa using hfail
        | k' + 1 =>
          have hklt : k' + 1 < countPurge (purgeLoop exitc (retry + 1) fuel').1 := by
            omega
          have := ih (retry + 1) k' hklt
          simpa [Nat.add_assoc, Nat.add_comm, Nat.add_left_comm] using this
    · simp [countPurge] at hk

theorem filesAfter_purgeLoop (exitc : Nat → Int) (retry fuel : Nat) (fs : List String) :
    filesAfter fs (purgeLoop exitc retry fuel).1 = fs := by
  induction fuel generalizing retry with
  | zero => simp [purgeLoop, filesAfter]
  | succ fuel' ih =>
    simp only [purgeLoop]
    split
    · split
      · simp [filesAfter]
      · exact ih (retry + 1)
    · simp [filesAfter]

theorem filesAfter_append (fs : List String) (t1 t2 : List Effect) :
    filesAfter fs (t1 ++ t2) = filesAfter (filesAfter fs t1) t2 := by
  simp [filesAfter, List.foldl_append]

/-- Claim C7: on the macOS branch the privileged purge command is invoked
at most 5 times, an invocation after the first happens only because the
previous attempt exited non-zero, and the helper script
`./mac_prompt_pw.sh` does not exist on disk after the call returns —
whatever the purge exit statuses and whatever existed on disk before —
and the call itself returns normally. -/
theorem clear_virtual_cache_darwin_cleanup (env : SysEnv) (fs0 : List String) :
    countPurge (clear_virtual_cache "darwin" env).1 ≤ 5
    ∧ (∀ k : Nat, k + 1 < countPurge (clear_virtual_cache "darwin" env).1 →
        env.purgeExit k ≠ 0)
    ∧ "./mac_prompt_pw.sh" ∉ filesAfter fs0 (clear_virtual_cache "darwin" env).1
    ∧ (clear_virtual_cache "darwin" env).2 = .normal := by
  have htrace : (clear_virtual_cache "darwin" env).1
      = [.writeFile "./mac_prompt_pw.sh" macPromptScript,
          .setEnvVar "SUDO_ASKPASS" "./mac_prompt_pw.sh",
          .runSystem "chmod +x ./mac_prompt_pw.sh"]
        ++ (purgeLoop env.purgeExit 0 5).1
        ++ (if (purgeLoop env.purgeExit 0 5).2 = 5 then [.printError purgeExhaustedMsg] else [])
        ++ [.removeFile "./mac_prompt_pw.sh", .printLine "Cleared virtual memory"] := by
    simp [clear_virtual_cache]
  have hcount : countPurge (clear_virtual_cache "darwin" env).1
      = countPurge (purgeLoop env.purgeExit 0 5).1 := by
    rw [htrace]
    rw [countPurge_append, countPurge_append, countPurge_append]
    have h1 : countPurge [Effect.writeFile "./mac_prompt_pw.sh" macPromptScript,
        Effect.setEnvVar "SUDO_ASKPASS" "./mac_prompt_pw.sh",
        Effect.runSystem "chmod +x ./mac_prompt_pw.sh"] = 0 := by decide
    have h2 : countPurge (if (purgeLoop env.purgeExit 0 5).2 = 5
        then [Effect.printError purgeExhaustedMsg] else []) = 0 := by
      split <;> simp [countPurge]
    have h3 : countPurge [Effect.removeFile "./mac_prompt_pw.sh",
        Effect.printLine "Cleared virtual memory"] = 0 := by decide
    rw [h1, h2, h3]
    omega
  refine ⟨?_, ?_, ?_, ?_⟩
  · rw [hcount]
    exact countPurge_purgeLoop_le env.purgeExit 0 5
  · intro k hk
    rw [hcount] at hk
    have := purgeLoop_retries_on_failure env.purgeExit 0 5 k hk
    simpa using this
  · rw [htrace, filesAfter_append, filesAfter_append, filesAfter_append]
    rw [filesAfter_purgeLoop]
    have hmid : ∀ fs : List String,
        filesAfter fs (if (purgeLoop env.purgeExit 0 5).2 = 5
          then [Effect.printError purgeExhaustedMsg] else []) = fs := by
      intro fs
      split <;> simp [filesAfter]
    rw [hmid]
    simp [filesAfter, List.mem_filter]
  · simp [clear_virtual_cache]

/-! ## Length bounds for `numbers_to_padded_string`

The loop invariant: while the line is within `width`, each step adds at
most `gap` padding; once the line has overrun `width`, every later step
adds its separator and value verbatim with no padding at all. -/

theorem one_le_ceilOfDiv (a b : Int) (hb : 0 < b) (hab : b ≤ a) : 1 ≤ ceilOfDiv a b := by
  unfold ceilOfDiv
  have hneg : (-a) / b ≤ -1 := by
    by_contra hcon
    rw [not_le] at hcon
    have h0 : (0 : Int) ≤ (-a) / b := by linarith
    rw [Int.le_ediv_iff_mul_le hb] at h0
    simp at h0
    omega
  rw [Int.fdiv_eq_ediv _ (le_of_lt hb)]
  linarith

theorem one_le_sepWidth (width : Int) (total count sepLen : Nat) (hc : 2 ≤ count) :
    1 ≤ sepWidth width total count sepLen := by
  have hb : (0 : Int) < ((count - 1 : Nat) : Int) := by
    have h1 : 0 < count - 1 := by omega
    exact_mod_cast h1
  simp only [sepWidth]
  split
  · exact le_refl 1
  · next h => exact one_le_ceilOfDiv _ _ hb (not_lt.mp h)

theorem length_step (acc1 p : String) (k : Nat) :
    ((acc1 ++ spaces k) ++ p).length = acc1.length + k + p.length := by
  simp [String.length_append, length_spaces]

theorem padLoop_overrun (sep : String) (gap width : Int) (hgap : 0 ≤ gap)
    (ps : List String) : ∀ acc : String, width < (acc.length : Int) →
      (padLoop acc ps gap width sep).length = acc.length + natTail sep ps := by
  induction ps with
  | nil =>
    intro acc _
    simp [padLoop, natTail]
  | cons p rest ih =>
    intro acc hover
    have hsplit : ((acc ++ sep).length : Int) = (acc.length : Int) + (sep.length : Int) := by
      rw [String.length_append]; push_cast; ring
    simp only [padLoop]
    have hc : ((acc ++ sep).length : Int) + gap + (p.length : Int) > width := by
      have hp : (0 : Int) ≤ (p.length : Int) := by positivity
      omega
    rw [if_pos hc]
    have hk : (width - ((acc ++ sep).length : Int) - (p.length : Int)).toNat = 0 := by
      have hp : (0 : Int) ≤ (p.length : Int) := by positivity
      omega
    rw [hk]
    have hov2 : width < ((((acc ++ sep) ++ spaces 0) ++ p).length : Int) := by
      rw [length_step]
      push_cast
      omega
    rw [ih _ hov2]
    rw [length_step, String.length_append]
    simp [natTail]
    omega

theorem padLoop_length_le (sep : String) (gap width : Int) (hgap : 1 ≤ gap)
    (ps : List String) : ∀ acc : String, (acc.length : Int) ≤ width →
      ((padLoop acc ps gap width sep).length : Int)
        ≤ max width ((acc.length : Int) + (natTail sep ps : Int))
            + ((ps.length - 1 : Nat) : Int) * gap := by
  induction ps with
  | nil =>
    intro acc _
    simp [padLoop, natTail]
  | cons p rest ih =>
    intro acc hacc
    have hsplit : ((acc ++ sep).length : Int) = (acc.length : Int) + (sep.length : Int) := by
      rw [String.length_append]; push_cast; ring
    have hnt : (natTail sep (p :: rest) : Int)
        = (sep.length : Int) + (p.length : Int) + (natTail sep rest : Int) := by
      simp [natTail]
    have hntnn : (0 : Int) ≤ (natTail sep rest : Int) := by positivity
    simp only [padLoop]
    by_cases hc : ((acc ++ sep).length : Int) + gap + (p.length : Int) > width
    · rw [if_pos hc]
      by_cases hpad : (0 : Int) ≤ width - ((acc ++ sep).length : Int) - (p.length : Int)
      · -- the trimmed gap makes the line end exactly at `width`
        have hkcast : (((width - ((acc ++ sep).length : Int) - (p.length : Int)).toNat : Nat) : Int)
            = width - ((acc ++ sep).length : Int) - (p.length : Int) :=
          Int.toNat_of_nonneg hpad
        have hnew : ((((acc ++ sep) ++ spaces (width - ((acc ++ sep).length : Int) - (p.length : Int)).toNat) ++ p).length : Int)
            = width := by
          rw [length_step]
          push_cast
          omega
        cases rest with
        | nil =>
          simp only [padLoop]
          rw [hnew]
          have h1 : (((p :: ([] : List String)).length - 1 : Nat) : Int) = 0 := by simp
          rw [h1, zero_mul, add_zero]
          exact le_max_left _ _
        | cons q rest' =>
          have hrec := ih _ (le_of_eq hnew)
          rw [hnew] at hrec
          have hmax : max width (width + (natTail sep (q :: rest') : Int))
              ≤ max width ((acc.length : Int) + (natTail sep (p :: q :: rest') : Int)) + gap := by
            apply max_le
            · have := le_max_left width ((acc.length : Int) + (natTail sep (p :: q :: rest') : Int))
              omega
            · have h2 := le_max_right width ((acc.length : Int) + (natTail sep (p :: q :: rest') : Int))
              have h3 : (natTail sep (p :: q :: rest') : Int)
                  = (sep.length : Int) + (p.length : Int) + (natTail sep (q :: rest') : Int) := by
                simp [natTail]
              omega
          have hprod : (((q :: rest').length - 1 : Nat) : Int) * gap + gap
              = (((p :: q :: rest').length - 1 : Nat) : Int) * gap := by
            have h1 : (((p :: q :: rest').length - 1 : Nat) : Int)
                = (((q :: rest').length - 1 : Nat) : Int) + 1 := by
              simp only [List.length_cons]
              omega
            rw [h1]
            ring
          calc ((padLoop _ (q :: rest') gap width sep).length : Int)
              ≤ max width (width + (natTail sep (q :: rest') : Int))
                  + (((q :: rest').length - 1 : Nat) : Int) * gap := hrec
            _ ≤ max width ((acc.length : Int) + (natTail sep (p :: q :: rest') : Int)) + gap
                  + (((q :: rest').length - 1 : Nat) : Int) * gap := by omega
            _ = max width ((acc.length : Int) + (natTail sep (p :: q :: rest') : Int))
                  + (((p :: q :: rest').length - 1 : Nat) : Int) * gap := by
                  rw [← hprod]; ring
      · -- the mandatory separator and value already overflow: zero padding,
        -- and the line has overrun `width` for good
        rw [not_le] at hpad
        have hk : (width - ((acc ++ sep).length : Int) - (p.length : Int)).toNat = 0 := by omega
        rw [hk]
        have hov : width < ((((acc ++ sep) ++ spaces 0) ++ p).length : Int) := by
          rw [length_step]
          push_cast
          omega
        rw [padLoop_overrun sep gap width (by omega) rest _ hov]
        have hprodnn : (0 : Int) ≤ (((p :: rest).length - 1 : Nat) : Int) * gap :=
          mul_nonneg (Int.natCast_nonneg _) (by omega)
        have hre := le_max_right width ((acc.length : Int) + (natTail sep (p :: rest) : Int))
        rw [length_step, String.length_append]
        push_cast
        omega
    · -- regular gap of exactly `gap` spaces, line still within `width`
      rw [if_neg hc]
      rw [not_lt] at hc
      have hgcast : ((gap.toNat : Nat) : Int) = gap := Int.toNat_of_nonneg (by omega)
      have hnew : ((((acc ++ sep) ++ spaces gap.toNat) ++ p).length : Int)
          = (acc.length : Int) + (sep.length : Int) + gap + (p.length : Int) := by
        rw [length_step]
        push_cast
        omega
      have hle : ((((acc ++ sep) ++ spaces gap.toNat) ++ p).length : Int) ≤ width := by
        omega
      cases rest with
      | nil =>
        simp only [padLoop]
        have h1 : (((p :: ([] : List String)).length - 1 : Nat) : Int) = 0 := by simp
        rw [h1, zero_mul, add_zero]
        exact le_trans hle (le_max_left _ _)
      | cons q rest' =>
        have hrec := ih _ hle
        rw [hnew] at hrec
        have h3 : (natTail sep (p :: q :: rest') : Int)
            = (sep.length : Int) + (p.length : Int) + (natTail sep (q :: rest') : Int) := by
          simp [natTail]
        have hmax : max width ((acc.length : Int) + (sep.length : Int) + gap + (p.length : Int)
                + (natTail sep (q :: rest') : Int))
            ≤ max width ((acc.length : Int) + (natTail sep (p :: q :: rest') : Int)) + gap := by
          apply max_le
          · have := le_max_left width ((acc.length : Int) + (natTail sep (p :: q :: rest') : Int))
            omega
          · have h2 := le_max_right width ((acc.length : Int) + (natTail sep (p :: q :: rest') : Int))
            omega
        have hprod : (((q :: rest').length - 1 : Nat) : Int) * gap + gap
            = (((p :: q :: rest').length - 1 : Nat) : Int) * gap := by
          have h1 : (((p :: q :: rest').length - 1 : Nat) : Int)
              = (((q :: rest').length - 1 : Nat) : Int) + 1 := by
            simp only [List.length_cons]
            omega
          rw [h1]
          ring
        calc ((padLoop _ (q :: rest') gap width sep).length : Int)
            ≤ max width ((acc.length : Int) + (sep.length : Int) + gap + (p.length : Int)
                + (natTail sep (q :: rest') : Int))
                + (((q :: rest').length - 1 : Nat) : Int) * gap := hrec
          _ ≤ max width ((acc.length : Int) + (natTail sep (p :: q :: rest') : Int)) + gap
                + (((q :: rest').length - 1 : Nat) : Int) * gap := by omega
          _ = max width ((acc.length : Int) + (natTail sep (p :: q :: rest') : Int))
                + (((p :: q :: rest').length - 1 : Nat) : Int) * gap := by
                rw [← hprod]; ring

theorem natTail_eq (sep : String) (ps : List String) :
    natTail sep ps = ps.length * sep.length + (ps.map String.length).sum := by
  induction ps with
  | nil => simp [natTail]
  | cons p rest ih =>
    simp [natTail, ih, List.length_cons, Nat.succ_mul]
    ring

theorem naturalLen_cons (v : Int) (vs : List Int) (pos : Bool) (sep : String) :
    naturalLen (v :: vs) pos sep
      = (number_to_padded_string v 0 pos).length
        + natTail sep (vs.map (fun x => number_to_padded_string x 0 pos)) := by
  simp [naturalLen, natTail_eq, List.map_map, List.length_map, List.length_cons,
    Function.comp_def]
  ring

theorem numbers_to_padded_string_eq_padLoop (v w : Int) (vs : List Int) (width : Int)
    (pos : Bool) (sep : String) :
    numbers_to_padded_string (v :: w :: vs) width pos sep
      = padLoop (number_to_padded_string v 0 pos)
          ((w :: vs).map (fun x => number_to_padded_string x 0 pos))
          (gapWidth (v :: w :: vs) width pos sep) width sep := rfl

/-- The overall length bound realised by the greedy loop: at most
`max width naturalLen` plus `(count - 2)` computed gaps. -/
theorem numbers_length_le_core (values : List Int) (width : Int) (pos : Bool) (sep : String) :
    ((numbers_to_padded_string values width pos sep).length : Int)
      ≤ max width ((naturalLen values pos sep : Nat) : Int)
          + ((values.length - 2 : Nat) : Int) * gapWidth values width pos sep := by
  match values with
  | [] =>
    simp [numbers_to_padded_string, naturalLen]
  | [v] =>
    simp [numbers_to_padded_string, pyLjust, String.length_append, length_spaces, naturalLen]
    omega
  | v :: w :: vs =>
    rw [numbers_to_padded_string_eq_padLoop]
    have hg1 : 1 ≤ gapWidth (v :: w :: vs) width pos sep := by
      apply one_le_sepWidth
      simp [List.length_cons]
    have hnatc := naturalLen_cons v (w :: vs) pos sep
    have e1 : ((number_to_padded_string v 0 pos).length : Int)
        + (natTail sep ((w :: vs).map (fun x => number_to_padded_string x 0 pos)) : Int)
        = ((naturalLen (v :: w :: vs) pos sep : Nat) : Int) := by
      rw [hnatc]
      push_cast
      ring
    by_cases hfit : ((number_to_padded_string v 0 pos).length : Int) ≤ width
    · have hb := padLoop_length_le sep (gapWidth (v :: w :: vs) width pos sep) width hg1
        ((w :: vs).map (fun x => number_to_padded_string x 0 pos))
        (number_to_padded_string v 0 pos) hfit
      have e2 : ((((w :: vs).map (fun x => number_to_padded_string x 0 pos)).length - 1 : Nat) : Int)
          = (((v :: w :: vs).length - 2 : Nat) : Int) := by
        simp [List.length_map, List.length_cons]
      rw [e1, e2] at hb
      exact hb
    · rw [not_le] at hfit
      rw [padLoop_overrun sep (gapWidth (v :: w :: vs) width pos sep) width (by omega)
        ((w :: vs).map (fun x => number_to_padded_string x 0 pos))
        (number_to_padded_string v 0 pos) hfit]
      have hprodnn : (0 : Int)
          ≤ (((v :: w :: vs).length - 2 : Nat) : Int) * gapWidth (v :: w :: vs) width pos sep :=
        mul_nonneg (Int.natCast_nonneg _) (by omega)
      have hre := le_max_right width ((naturalLen (v :: w :: vs) pos sep : Nat) : Int)
      push_cast
      push_cast at e1
      linarith

/-- Claim C4, amended: the output length is at most
`max width naturalUnpaddedLength` plus `(count - 2)` computed gap widths —
the extra gap term is necessary: without it the bound fails (see the
counterexample). -/
theorem numbers_to_padded_string_length_bound (values : List Int) (width : Int)
    (pos : Bool) (sep : String) :
    ((numbers_to_padded_string values width pos sep).length : Int)
      ≤ max width ((naturalLen values pos sep : Nat) : Int)
          + ((values.length - 2 : Nat) : Int) * gapWidth values width pos sep :=
  numbers_length_le_core values width pos sep

/-- Counterexample to C4 as stated: for `[1, 2, 3]` at width 10 (defaults
`pos_space = true`, separator `", "`) the output has 11 characters, yet
`max(width, naturalUnpaddedLength) = max(10, 10) = 10`. -/
theorem numbers_to_padded_string_natural_bound_counterexample :
    ¬ (((numbers_to_padded_string [1, 2, 3] 10 true ", ").length : Int)
        ≤ max (10 : Int) ((naturalLen [1, 2, 3] true ", " : Nat) : Int)) := by
  decide

/-- Claim C3, amended: whenever the natural unpadded length fits within
`width`, the output is never longer than `width` plus `(count - 2)`
computed gap widths (the unconditional never-longer-than-`width` and the
exactly-`width`-when-it-fits guarantees fail, see the counterexample); the
instance `[1, 2, 3]` at width 11 with separator `", "` renders to exactly
11 characters with all three values in order. -/
theorem numbers_to_padded_string_width_bound :
    (∀ (values : List Int) (width : Int) (pos : Bool) (sep : String),
      ((naturalLen values pos sep : Nat) : Int) ≤ width →
      ((numbers_to_padded_string values width pos sep).length : Int)
        ≤ width + ((values.length - 2 : Nat) : Int) * gapWidth values width pos sep)
    ∧ numbers_to_padded_string [1, 2, 3] 11 true ", " = " 1,   2,  3"
    ∧ (numbers_to_padded_string [1, 2, 3] 11 true ", ").length = 11 := by
  refine ⟨?_, by decide, by decide⟩
  intro values width pos sep h
  have hb := numbers_length_le_core values width pos sep
  rw [max_eq_left h] at hb
  exact hb

/-- Witness for C3 at `[1, 2]`, width 8 (the natural length 6 fits). -/
theorem numbers_to_padded_string_width_bound_witness :
    ((numbers_to_padded_string [1, 2] 8 true ", ").length : Int)
      ≤ 8 + ((([1, 2] : List Int).length - 2 : Nat) : Int) * gapWidth [1, 2] 8 true ", " :=
  numbers_to_padded_string_width_bound.1 [1, 2] 8 true ", " (by decide)

/-- Counterexample to C3 as stated: for `[1, 2, 3]` at width 10 the natural
unpadded length (10) fits within the width, yet the output has 11
characters — longer than `width` and not exactly `width`. -/
theorem numbers_to_padded_string_width_overflow_counterexample :
    naturalLen [1, 2, 3] true ", " ≤ 10
    ∧ (numbers_to_padded_string [1, 2, 3] 10 true ", ").length = 11 := by
  constructor
  · decide
  · decide

theorem padLoop_structure (sep : String) (gap width : Int) (ps : List String) :
    ∀ acc : String, ∃ gaps : List Nat,
      gaps.length = ps.length
      ∧ padLoop acc ps gap width sep = acc ++ gapRender sep ps gaps := by
  induction ps with
  | nil =>
    intro acc
    exact ⟨[], rfl, by simp [padLoop, gapRender]⟩
  | cons p rest ih =>
    intro acc
    simp only [padLoop]
    generalize (if ((acc ++ sep).length : Int) + gap + (p.length : Int) > width
      then (width - ((acc ++ sep).length : Int) - (p.length : Int)).toNat
      else gap.toNat) = k
    obtain ⟨gaps, hlen, heq⟩ := ih (((acc ++ sep) ++ spaces k) ++ p)
    refine ⟨k :: gaps, by simp [hlen], ?_⟩
    rw [heq]
    simp [gapRender, String.append_assoc]

/-- Claim C10: for two or more values, the output of
`numbers_to_padded_string` is exactly the first value's rendering followed,
for each subsequent value in order, by one full copy of the separator, a
run of zero or more spaces, and that value's full rendering — nothing is
truncated or dropped, only the space runs vary. -/
theorem numbers_to_padded_string_structure (v : Int) (vs : List Int) (width : Int)
    (pos : Bool) (sep : String) (hvs : vs ≠ []) :
    ∃ gaps : List Nat,
      gaps.length = vs.length
      ∧ numbers_to_padded_string (v :: vs) width pos sep
        = number_to_padded_string v 0 pos
          ++ gapRender sep (vs.map (fun x => number_to_padded_string x 0 pos)) gaps := by
  match vs, hvs with
  | w :: vs', _ =>
    rw [numbers_to_padded_string_eq_padLoop]
    obtain ⟨gaps, hlen, heq⟩ := padLoop_structure sep
      (gapWidth (v :: w :: vs') width pos sep) width
      ((w :: vs').map (fun x => number_to_padded_string x 0 pos))
      (number_to_padded_string v 0 pos)
    exact ⟨gaps, by simpa using hlen, heq⟩

/-- Witness for C10 at `[1, 2, 3]`, width 10. -/
theorem numbers_to_padded_string_structure_witness :
    ∃ gaps : List Nat,
      gaps.length = ([2, 3] : List Int).length
      ∧ numbers_to_padded_string (1 :: [2, 3]) 10 true ", "
        = number_to_padded_string 1 0 true
          ++ gapRender ", " (([2, 3] : List Int).map (fun x => number_to_padded_string x 0 true)) gaps :=
  numbers_to_padded_string_structure 1 [2, 3] 10 true ", " (by decide)

/-- Witness for C7: every purge attempt failing exercises the exhausted-
retries path; the helper script is still removed. -/
theorem clear_virtual_cache_darwin_cleanup_witness :
    countPurge (clear_virtual_cache "darwin" ⟨true, true, true, fun _ => 1⟩).1 ≤ 5
    ∧ (∀ k : Nat, k + 1 < countPurge (clear_virtual_cache "darwin" ⟨true, true, true, fun _ => 1⟩).1 →
        (⟨true, true, true, fun _ => 1⟩ : SysEnv).purgeExit k ≠ 0)
    ∧ "./mac_prompt_pw.sh" ∉ filesAfter ["./mac_prompt_pw.sh"]
        (clear_virtual_cache "darwin" ⟨true, true, true, fun _ => 1⟩).1
    ∧ (clear_virtual_cache "darwin" ⟨true, true, true, fun _ => 1⟩).2 = .normal :=
  clear_virtual_cache_darwin_cleanup ⟨true, true, true, fun _ => 1⟩ ["./mac_prompt_pw.sh"]

end Ieegprep
